import Mathlib

/-!
Verification of the transcription core of the
AI_Powered_Video_Title_Generator repository.

The development shallowly embeds the relevant Python code:

* `app/modules/transcription.py` — `TranscriptionModule`
  (`_calculate_chunks`, `_transcribe_with_chunking`,
  `_transcribe_single_file`, the tenacity retry wrapper around
  `_call_groq_whisper`, and the transcript-merging logic);
* `app/modules/audio_extraction.py` — `AudioExtractionModule`
  (`_calculate_timeout`, the failure checks of `extract_audio`,
  `get_video_duration`).

External effects (ffmpeg/ffprobe process runs, the Groq API, the file
system) are modelled with explicit outcome values supplied as oracles:
each definition computes exactly what the Python control flow computes
from those outcomes.  Python floats are modelled by `ℚ`, Python `str`
by Lean `String`, and Python string primitives (`strip`, `split`,
slicing, `in`, `replace`) by executable functions on `List Char`.
-/

namespace VideoTitleGen

/-! ## Python string primitives, modelled on `List Char` -/

/-- Python `s.strip()`: remove leading and trailing whitespace. -/
def pyStripL (l : List Char) : List Char :=
  ((l.dropWhile Char.isWhitespace).reverse.dropWhile Char.isWhitespace).reverse

/-- Python `s.strip()` on `String`. -/
def pyStrip (s : String) : String := ⟨pyStripL s.data⟩

/-- Python `s.split()` (no argument): split on whitespace runs, dropping
empty pieces. -/
def pySplitL (l : List Char) : List (List Char) :=
  (l.splitOnP Char.isWhitespace).filter (fun w => w ≠ [])

/-- Python `len(s.split())`: number of whitespace-separated tokens. -/
def pyWordCount (s : String) : ℕ := (pySplitL s.data).length

/-- Python `s[-n:]` for `n > 0`: the trailing `min n (length s)`
characters. -/
def pyTakeRightL (l : List Char) (n : ℕ) : List Char :=
  l.drop (l.length - n)

/-- Python `s[-n:]` on `String`. -/
def pyTakeRight (s : String) (n : ℕ) : String := ⟨pyTakeRightL s.data n⟩

/-- Python `"  " in s`: does the character list contain two consecutive
spaces? -/
def hasDoubleSpace : List Char → Bool
  | c₁ :: c₂ :: rest => (c₁ = ' ' && c₂ = ' ') || hasDoubleSpace (c₂ :: rest)
  | _ => false

/-- One pass of Python `s.replace("  ", " ")`: replace non-overlapping
occurrences of two spaces by one, scanning left to right. -/
def replaceDoubleSpace : List Char → List Char
  | ' ' :: ' ' :: rest => ' ' :: replaceDoubleSpace rest
  | c :: rest => c :: replaceDoubleSpace rest
  | [] => []

/-- The `while "  " in full_transcript:` loop of
`_transcribe_with_chunking` (transcription.py lines 415–416), run with
enough fuel: each pass that fires shortens the list, so `l.length`
passes always reach a fixed point. -/
def collapseSpacesL (fuel : ℕ) (l : List Char) : List Char :=
  match fuel with
  | 0 => l
  | fuel + 1 => if hasDoubleSpace l then collapseSpacesL fuel (replaceDoubleSpace l) else l

/-- Collapse repeated spaces in a string, as the Python `while` loop
does. -/
def collapseSpaces (s : String) : String := ⟨collapseSpacesL s.data.length s.data⟩

/-- Python `" ".join(transcripts)` (transcription.py line 412). -/
def pyJoinSpace : List String → String
  | [] => ""
  | [s] => s
  | s :: rest => s ++ " " ++ pyJoinSpace rest

/-! ## `TranscriptionModule` constants (transcription.py lines 57–64) -/

/-- Groq's file size limit, `MAX_FILE_SIZE_MB = 25`. -/
def MAX_FILE_SIZE_MB : ℚ := 25

/-- Target chunk size, `TARGET_CHUNK_SIZE_MB = 20`. -/
def TARGET_CHUNK_SIZE_MB : ℚ := 20

/-- Maximum chunk duration, `MAX_CHUNK_DURATION_SECONDS = 600`. -/
def MAX_CHUNK_DURATION_SECONDS : ℚ := 600

/-! ## `_calculate_chunks` (transcription.py lines 172–209)

The Python method reads the file's size (MB) and probed duration
(seconds) and returns a list of `(start_time, duration)` pairs.  We
take size and duration as arguments and keep the two class-level
ceilings as parameters so the planner can also be studied at other
(positive) ceiling values. -/

/-- `_calculate_chunks`, generalised over the two ceilings
(`target` = `TARGET_CHUNK_SIZE_MB`, `maxDur` = `MAX_CHUNK_DURATION_SECONDS`). -/
def calculate_chunks_g (target maxDur file_size_mb total_duration : ℚ) :
    List (ℚ × ℚ) :=
  if file_size_mb ≤ target then
    [(0, total_duration)]
  else
    let numBySize : ℤ := ⌈file_size_mb / target⌉
    let numByDuration : ℤ := ⌈total_duration / maxDur⌉
    let num_chunks : ℕ := (max numBySize numByDuration).toNat
    let chunk_duration : ℚ := total_duration / num_chunks
    (List.range num_chunks).map (fun i : ℕ =>
      ((i : ℚ) * chunk_duration,
       if i = num_chunks - 1 then total_duration - (i : ℚ) * chunk_duration
       else chunk_duration))

/-- `_calculate_chunks` with the class constants of the source. -/
def calculate_chunks (file_size_mb total_duration : ℚ) : List (ℚ × ℚ) :=
  calculate_chunks_g TARGET_CHUNK_SIZE_MB MAX_CHUNK_DURATION_SECONDS
    file_size_mb total_duration

/-! ## `AudioExtractionModule._calculate_timeout`
(audio_extraction.py lines 78–86) -/

/-- `BASE_TIMEOUT_SECONDS = 300`. -/
def BASE_TIMEOUT_SECONDS : ℤ := 300

/-- `TIMEOUT_PER_GB = 180`. -/
def TIMEOUT_PER_GB : ℚ := 180

/-- `_get_file_size_gb`: byte count over `1024 ** 3`. -/
def file_size_gb (sizeBytes : ℕ) : ℚ := (sizeBytes : ℚ) / (1024 * 1024 * 1024)

/-- `_calculate_timeout`: `timeout = BASE + int(size_gb * RATE)`,
then `min(timeout, 3600)`.  Python's `int()` truncates toward zero,
which on the non-negative sizes at hand is the floor. -/
def calculate_timeout (sizeBytes : ℕ) : ℤ :=
  min (BASE_TIMEOUT_SECONDS + ⌊file_size_gb sizeBytes * TIMEOUT_PER_GB⌋) 3600

/-! ## `AudioExtractionModule.extract_audio` failure checks
(audio_extraction.py lines 147–167)

The ffmpeg child process either times out or completes with an exit
code and a stderr text; after a completed run the output file either
exists (with some byte size) or not.  The code after `subprocess.run`
is embedded literally: non-zero exit raises `AudioExtractionError`
carrying `result.stderr[-500:]` (or `"Unknown error"` when stderr is
empty); exit 0 raises only when the output file does not exist. -/

/-- Outcome of a completed external-process run: exit code and the
captured stderr / stdout texts. -/
structure ProcResult where
  returncode : ℤ
  stderr : String
  stdout : String
deriving DecidableEq

/-- The checks `extract_audio` performs after `subprocess.run`
returns: arguments are the process result and the post-run state of
the output file (whether it exists and how many bytes it has).  `.ok`
models returning `output_path`; `.error` models raising
`AudioExtractionError` with the given message. -/
def extract_audio_result (res : ProcResult) (outputExists : Bool)
    (outputSizeBytes : ℕ) : Except String Unit :=
  if res.returncode ≠ 0 then
    .error ("FFmpeg failed: " ++
      (if res.stderr ≠ "" then pyTakeRight res.stderr 500 else "Unknown error"))
  else if !outputExists then
    .error "Output audio file was not created"
  else
    .ok ()

/-! ## `AudioExtractionModule.get_video_duration`
(audio_extraction.py lines 179–210)

The ffprobe run either raises `TimeoutExpired` or completes; a
completed run's stdout is stripped and fed to Python's `float`, whose
possible `ValueError` is modelled by a parse oracle returning
`Option ℚ`.  Both `TimeoutExpired` and `ValueError` are caught and
turned into `0.0`; a non-zero exit or empty stdout also yields `0.0`. -/

/-- Outcome of the ffprobe child process. -/
inductive ProbeOutcome where
  | timedOut : ProbeOutcome
  | completed : ProcResult → ProbeOutcome

/-- `get_video_duration`, as a function of the process outcome and of
the semantics `parseFloat` of Python's `float` on the stripped stdout
(`none` = `ValueError`).  `.error` would model an uncaught exception
escaping to the caller; the embedded code never produces one. -/
def get_video_duration (parseFloat : String → Option ℚ) :
    ProbeOutcome → Except String ℚ
  | .timedOut => .ok 0
  | .completed res =>
      if res.returncode = 0 ∧ pyStrip res.stdout ≠ "" then
        match parseFloat (pyStrip res.stdout) with
        | some v => .ok v
        | none => .ok 0
      else
        .ok 0

/-! ## Retry policy of `_call_groq_whisper`
(transcription.py lines 259–268)

The method is decorated with
`@retry(stop=stop_after_attempt(3), wait=wait_exponential(multiplier=1, min=2, max=10))`.
tenacity computes the wait after the `n`-th failed attempt as
`max(max(0, min), min(multiplier * 2 ** (n - 1), max))`, retries while
the attempt number is below the stop bound, and raises `RetryError`
once it is reached.  A run of attempts is an oracle
`ℕ → Option α`: `f n` is the value returned by attempt number `n`, or
`none` when that attempt raises. -/

/-- tenacity `wait_exponential(multiplier, min=mn, max=mx)` evaluated
after failed attempt number `n`. -/
def wait_exponential (multiplier mn mx : ℚ) (n : ℕ) : ℚ :=
  max (max 0 mn) (min (multiplier * 2 ^ (n - 1)) mx)

/-- The tenacity retry loop: `fuel` is the number of attempts still
allowed by `stop_after_attempt`, `n` the 1-based number of the next
attempt.  Returns the list of backoff waits performed, the number of
attempts made, and `none` when every allowed attempt failed
(`RetryError`). -/
def retryRun (f : ℕ → Option α) : ℕ → ℕ → List ℚ × ℕ × Option α
  | 0, _ => ([], 0, none)
  | fuel + 1, n =>
    match f n with
    | some a => ([], 1, some a)
    | none =>
      if fuel = 0 then ([], 1, none)
      else
        let rest := retryRun f fuel (n + 1)
        (wait_exponential 1 2 10 n :: rest.1, rest.2.1 + 1, rest.2.2)

/-- `_call_groq_whisper` under its decorator: at most 3 attempts,
waits from `wait_exponential(multiplier=1, min=2, max=10)`. -/
def call_groq_whisper (f : ℕ → Option α) : List ℚ × ℕ × Option α :=
  retryRun f 3 1

/-- The error wrapper of `transcribe` (transcription.py lines
487–501): a `TranscriptionError` passes through, any other exception —
in particular tenacity's `RetryError` once retries are exhausted — is
wrapped into `TranscriptionError`.  `none` stands for the exhausted
retry loop. -/
def transcribe_wrap (r : Option α) : Except String α :=
  match r with
  | some a => .ok a
  | none => .error "Transcription failed: RetryError"

/-! ## `_transcribe_with_chunking` (transcription.py lines 313–445)

The per-chunk loop (lines 368–409) extracts chunk `i`, checks its size
against `MAX_FILE_SIZE_MB`, builds the continuity prompt from the
accumulated `transcripts` list, calls `_transcribe_single_file`, and
accumulates non-empty texts and the first detected language.  The
Groq API and the chunk files are oracles: `chunkSizeMB i` is the size
of the extracted chunk file `i`, `rawText i` / `rawLang i` the fields
of the API response for chunk `i` (`rawLang i = none` models a
response without a `language` attribute, `rawDur i` the reported
duration).  Events record, in order, which chunks were extracted and
which were sent to the remote call, with which prompt. -/

/-- `TranscriptResult` (app/schemas): the transcription outcome. -/
structure TranscriptResult where
  text : String
  language : String
  duration_seconds : ℚ
  word_count : ℕ
deriving DecidableEq

/-- Oracles for the per-chunk external effects. -/
structure ChunkWorld where
  chunkSizeMB : ℕ → ℚ
  rawText : ℕ → String
  rawLang : ℕ → Option String
  rawDur : ℕ → ℚ

/-- Observable events of the chunk loop. -/
inductive ChunkEvent where
  | extracted : ℕ → ChunkEvent
  | remoteCall : ℕ → Option String → ChunkEvent
deriving DecidableEq

/-- Failures raised inside the chunk loop. -/
inductive ChunkError where
  | tooLarge : ℕ → ChunkError
deriving DecidableEq

/-- `detected_lang = getattr(result, 'language', 'en') or 'en'`
(transcription.py line 308): an absent, `None` or empty language field
falls back to `"en"`. -/
def effectiveLang (raw : Option String) : String :=
  match raw with
  | some l => if l = "" then "en" else l
  | none => "en"

/-- The continuity prompt computed at the top of each loop iteration
(transcription.py lines 389–392): `None` unless `transcripts` is
non-empty and its last entry is longer than 50 characters, in which
case the last 200 characters of that entry. -/
def continuityPrompt (transcripts : List String) : Option String :=
  match transcripts.getLast? with
  | some t => if 50 < t.length then some (pyTakeRight t 200) else none
  | none => none

/-- One pass of the loop body plus the recursive rest:
`remaining` chunks still to process, `i` the index of the next chunk,
`transcripts` and `detected` the accumulated state.  Returns the event
trace and either the raised error or the final state. -/
def processChunks (w : ChunkWorld) (maxMB : ℚ) :
    ℕ → ℕ → List String → Option String →
    List ChunkEvent × Except ChunkError (List String × Option String)
  | 0, _, transcripts, detected => ([], .ok (transcripts, detected))
  | remaining + 1, i, transcripts, detected =>
    if maxMB < w.chunkSizeMB i then
      ([.extracted i], .error (.tooLarge i))
    else
      let prompt := continuityPrompt transcripts
      let text := pyStrip (w.rawText i)
      let transcripts' := if text ≠ "" then transcripts ++ [text] else transcripts
      let detected' :=
        match detected with
        | some l => some l
        | none => some (effectiveLang (w.rawLang i))
      let rest := processChunks w maxMB remaining (i + 1) transcripts' detected'
      (.extracted i :: .remoteCall i prompt :: rest.1, rest.2)

/-- The transcript merge of the multi-chunk path (transcription.py
lines 411–418): join with single spaces, collapse double spaces,
count words of the merged text. -/
def mergeTranscripts (transcripts : List String) : String :=
  collapseSpaces (pyJoinSpace transcripts)

/-- The multi-chunk branch of `_transcribe_with_chunking` (lines
357–430): run the loop over all planned chunks, then merge.  The
result duration is the probed `total_duration`, the language the first
detected one with fallback `'en'`. -/
def transcribeChunked (w : ChunkWorld) (numChunks : ℕ) (total_duration : ℚ) :
    List ChunkEvent × Except ChunkError TranscriptResult :=
  let run := processChunks w MAX_FILE_SIZE_MB numChunks 0 [] none
  match run.2 with
  | .error e => (run.1, .error e)
  | .ok (transcripts, detected) =>
      let full := mergeTranscripts transcripts
      (run.1, .ok ⟨full, detected.getD "en", total_duration, pyWordCount full⟩)

/-- Oracle for one `_transcribe_single_file` call (the API response
fields for the whole file, possibly after compression). -/
structure SingleWorld where
  rawText : String
  rawLang : Option String
  rawDur : ℚ

/-- The single-file result construction shared by the two
`len(chunks) == 1` sub-branches (transcription.py lines 339–344 and
350–355): `duration_seconds = dur or total_duration` uses the probed
duration when the API reports a falsy (zero) one, and `word_count`
recounts the words of the stripped text. -/
def singleFileResult (s : SingleWorld) (total_duration : ℚ) : TranscriptResult :=
  let text := pyStrip s.rawText
  let dur := s.rawDur
  ⟨text, effectiveLang s.rawLang,
    if dur = 0 then total_duration else dur,
    pyWordCount text⟩

/-- `_transcribe_with_chunking` in full: plan chunks from the file's
size and probed duration; with a single planned chunk, compress first
when the file exceeds `MAX_FILE_SIZE_MB` (the API call on the
compressed file is the `compressed` oracle, on the original file the
`direct` oracle); with several chunks, run the chunk loop. -/
def transcribe_with_chunking (w : ChunkWorld) (direct compressed : SingleWorld)
    (file_size_mb total_duration : ℚ) : Except ChunkError TranscriptResult :=
  let chunks := calculate_chunks file_size_mb total_duration
  if chunks.length = 1 then
    if MAX_FILE_SIZE_MB < file_size_mb then
      .ok (singleFileResult compressed total_duration)
    else
      .ok (singleFileResult direct total_duration)
  else
    (transcribeChunked w chunks.length total_duration).2

/-! ## Plan-shape predicates -/

/-- Each interval starts where the previous one ends. -/
def planContiguous (plan : List (ℚ × ℚ)) : Prop :=
  ∀ i (h : i + 1 < plan.length),
    (plan.get ⟨i + 1, h⟩).1 =
      (plan.get ⟨i, Nat.lt_of_succ_lt h⟩).1 + (plan.get ⟨i, Nat.lt_of_succ_lt h⟩).2

/-- Adjacent intervals do not overlap: each ends no later than the
next one starts. -/
def planNonOverlapping (plan : List (ℚ × ℚ)) : Prop :=
  ∀ i (h : i + 1 < plan.length),
    (plan.get ⟨i, Nat.lt_of_succ_lt h⟩).1 + (plan.get ⟨i, Nat.lt_of_succ_lt h⟩).2 ≤
      (plan.get ⟨i + 1, h⟩).1

/-- Every interval has non-negative duration. -/
def planDursNonneg (plan : List (ℚ × ℚ)) : Prop :=
  ∀ i (h : i < plan.length), 0 ≤ (plan.get ⟨i, h⟩).2

/-- The first interval starts at time 0. -/
def planStartsAtZero (plan : List (ℚ × ℚ)) : Prop :=
  ∀ h : 0 < plan.length, (plan.get ⟨0, h⟩).1 = 0

/-- The interval durations sum to the given total. -/
def planCoversTotal (plan : List (ℚ × ℚ)) (total : ℚ) : Prop :=
  (plan.map Prod.snd).sum = total

/-! ## Theorems -/

/-- C1 counterexample: a 22 MB input is at most the remote service's
25 MB ceiling, yet `_calculate_chunks` (which compares against
`TARGET_CHUNK_SIZE_MB = 20`, not against `MAX_FILE_SIZE_MB = 25`)
splits it into two chunks instead of returning a single chunk spanning
the full 100 s duration. -/
theorem calculate_chunks_not_single_below_ceiling :
    (22 : ℚ) ≤ MAX_FILE_SIZE_MB ∧
    calculate_chunks 22 100 = [(0, 50), (50, 50)] ∧
    calculate_chunks 22 100 ≠ [(0, 100)] := by
  have hc1 : (⌈(22 : ℚ) / 20⌉ : ℤ) = 2 := by
    rw [Int.ceil_eq_iff]
    norm_num
  have hc2 : (⌈(100 : ℚ) / 600⌉ : ℤ) = 1 := by
    rw [Int.ceil_eq_iff]
    norm_num
  have heval : calculate_chunks 22 100 = [(0, 50), (50, 50)] := by
    simp only [calculate_chunks, calculate_chunks_g, TARGET_CHUNK_SIZE_MB,
      MAX_CHUNK_DURATION_SECONDS, hc1, hc2]
    rw [if_neg (by norm_num)]
    have h2 : (max (2 : ℤ) 1).toNat = 2 := by decide
    rw [h2]
    simp only [List.range_succ, List.range_zero, List.map_append, List.map_cons,
      List.map_nil, List.nil_append, List.cons_append]
    norm_num
  refine ⟨by norm_num [MAX_FILE_SIZE_MB], heval, ?_⟩
  rw [heval]
  intro hcontra
  exact absurd (List.head_eq_of_cons_eq hcontra) (by norm_num)

/-- C1 (amended): the single-chunk guard of `_calculate_chunks`
compares the file size against `TARGET_CHUNK_SIZE_MB = 20` (not the
25 MB remote ceiling): every input of at most 20 MB yields exactly one
chunk spanning `[0, durationSeconds]`. -/
theorem calculate_chunks_single_below_target (size dur : ℚ)
    (h : size ≤ TARGET_CHUNK_SIZE_MB) :
    calculate_chunks size dur = [(0, dur)] := by
  simp [calculate_chunks, calculate_chunks_g, h]

/-- C1 witness: a 10 MB, 100 s input gets the single full-span chunk. -/
theorem calculate_chunks_single_below_target_witness :
    calculate_chunks 10 100 = [(0, 100)] :=
  calculate_chunks_single_below_target 10 100 (by norm_num [TARGET_CHUNK_SIZE_MB])

/-- Reading an entry of a mapped range. -/
lemma get_range_map (m : ℕ) (g : ℕ → ℚ × ℚ) (i : ℕ)
    (h : i < ((List.range m).map g).length) :
    ((List.range m).map g).get ⟨i, h⟩ = g i := by
  simp [List.get_eq_getElem]

/-- Summing the per-chunk durations of the evenly-divided plan: the
first `n - 1` chunks contribute `cd` each, the final chunk its own
value. -/
lemma range_map_sum_last (n : ℕ) (hn : 1 ≤ n) (cd lastDur : ℚ) :
    ((List.range n).map (fun i => if i = n - 1 then lastDur else cd)).sum
      = ((n : ℚ) - 1) * cd + lastDur := by
  obtain ⟨m, rfl⟩ : ∃ m, n = m + 1 := ⟨n - 1, by omega⟩
  rw [List.range_succ, List.map_append, List.sum_append]
  simp only [Nat.add_sub_cancel, List.map_cons, List.map_nil, if_pos rfl]
  have hmap : (List.range m).map (fun i => if i = m then lastDur else cd)
      = List.replicate m cd := by
    rw [List.eq_replicate_iff]
    refine ⟨by simp, ?_⟩
    intro b hb
    rcases List.mem_map.mp hb with ⟨i, hi, rfl⟩
    have : i ≠ m := Nat.ne_of_lt (List.mem_range.mp hi)
    simp [this]
  rw [hmap, List.sum_replicate]
  push_cast
  simp [nsmul_eq_mul]

/-- C3: for every file size, every non-negative total duration and
positive size/duration ceilings, the plan computed by
`_calculate_chunks` has at least one interval, starts at 0, is
contiguous and non-overlapping with non-negative durations, and its
durations sum exactly to the total duration (the final interval
absorbing the division remainder). -/
theorem calculate_chunks_invariants (target maxDur size dur : ℚ)
    (htarget : 0 < target) (hmaxDur : 0 < maxDur) (hdur : 0 ≤ dur) :
    1 ≤ (calculate_chunks_g target maxDur size dur).length ∧
    planStartsAtZero (calculate_chunks_g target maxDur size dur) ∧
    planContiguous (calculate_chunks_g target maxDur size dur) ∧
    planNonOverlapping (calculate_chunks_g target maxDur size dur) ∧
    planDursNonneg (calculate_chunks_g target maxDur size dur) ∧
    planCoversTotal (calculate_chunks_g target maxDur size dur) dur := by
  by_cases hle : size ≤ target
  · have hplan : calculate_chunks_g target maxDur size dur = [(0, dur)] := by
      simp [calculate_chunks_g, hle]
    rw [hplan]
    refine ⟨by simp, ?_, ?_, ?_, ?_, ?_⟩
    · intro h
      rfl
    · intro i h
      simp at h
    · intro i h
      simp at h
    · intro i h
      have h1 : i = 0 := by
        simp only [List.length_cons, List.length_nil] at h
        omega
      subst h1
      simpa using hdur
    · simp [planCoversTotal]
  · -- the multi-chunk branch
    set n : ℕ := (max ⌈size / target⌉ ⌈dur / maxDur⌉).toNat with hn
    set cd : ℚ := dur / n with hcd
    have hplan : calculate_chunks_g target maxDur size dur
        = (List.range n).map (fun i : ℕ =>
            ((i : ℚ) * cd, if i = n - 1 then dur - (i : ℚ) * cd else cd)) := by
      simp only [calculate_chunks_g, if_neg hle, ← hn, ← hcd]
    have hsz : target < size := not_le.mp hle
    have hone : (1 : ℤ) < ⌈size / target⌉ :=
      Int.lt_ceil.mpr (by exact_mod_cast (one_lt_div htarget).mpr hsz)
    have hn2 : 2 ≤ n := by
      have : (2 : ℤ) ≤ max ⌈size / target⌉ ⌈dur / maxDur⌉ :=
        le_trans (by omega) (le_max_left _ _)
      omega
    have hn1 : 1 ≤ n := le_trans (by norm_num) hn2
    have hnq : (0 : ℚ) < (n : ℚ) := by exact_mod_cast Nat.lt_of_lt_of_le Nat.zero_lt_two hn2
    have hcd0 : 0 ≤ cd := by
      rw [hcd]
      positivity
    have hlast : 0 ≤ dur - ((n : ℚ) - 1) * cd := by
      have : dur - ((n : ℚ) - 1) * cd = cd := by
        rw [hcd]
        field_simp
        ring
      rw [this]
      exact hcd0
    rw [hplan]
    have hlen : ((List.range n).map (fun i : ℕ =>
        ((i : ℚ) * cd, if i = n - 1 then dur - (i : ℚ) * cd else cd))).length = n := by
      simp
    refine ⟨by omega, ?_, ?_, ?_, ?_, ?_⟩
    · intro h
      rw [get_range_map]
      simp
    · intro i h
      rw [get_range_map, get_range_map]
      have hi : i ≠ n - 1 := by
        rw [hlen] at h
        omega
      simp only [if_neg hi]
      push_cast
      ring
    · intro i h
      rw [get_range_map, get_range_map]
      have hi : i ≠ n - 1 := by
        rw [hlen] at h
        omega
      simp only [if_neg hi]
      push_cast
      ring_nf
      exact le_refl _
    · intro i h
      rw [get_range_map]
      by_cases hi : i = n - 1
      · have hicast : (i : ℚ) = (n : ℚ) - 1 := by
          subst hi
          push_cast [Nat.cast_sub hn1]
          ring
        simp only [if_pos hi, hicast]
        exact hlast
      · simp only [if_neg hi]
        exact hcd0
    · unfold planCoversTotal
      rw [List.map_map]
      have hcomp : (Prod.snd ∘ fun i : ℕ =>
          ((i : ℚ) * cd, if i = n - 1 then dur - (i : ℚ) * cd else cd))
          = fun i : ℕ => if i = n - 1 then dur - (i : ℚ) * cd else cd := by
        funext i
        simp
      rw [hcomp]
      have hlastcast : ((n : ℚ) - 1) = ((n - 1 : ℕ) : ℚ) := by
        push_cast [Nat.cast_sub hn1]
        ring
      have := range_map_sum_last n hn1 cd (dur - ((n - 1 : ℕ) : ℚ) * cd)
      rw [show (fun i : ℕ => if i = n - 1 then dur - (i : ℚ) * cd else cd)
            = (fun i : ℕ => if i = n - 1 then dur - ((n - 1 : ℕ) : ℚ) * cd else cd) from ?_,
         this]
      · rw [← hlastcast]
        ring
      · funext i
        by_cases hi : i = n - 1
        · simp [hi]
        · simp [hi]

/-- C3 witness: the invariants instantiated at the source's own
ceilings (20 MB target, 600 s max chunk duration) on a 22 MB, 100 s
input. -/
theorem calculate_chunks_invariants_witness :
    1 ≤ (calculate_chunks_g 20 600 22 100).length ∧
    planStartsAtZero (calculate_chunks_g 20 600 22 100) ∧
    planContiguous (calculate_chunks_g 20 600 22 100) ∧
    planNonOverlapping (calculate_chunks_g 20 600 22 100) ∧
    planDursNonneg (calculate_chunks_g 20 600 22 100) ∧
    planCoversTotal (calculate_chunks_g 20 600 22 100) 100 :=
  calculate_chunks_invariants 20 600 22 100 (by norm_num) (by norm_num) (by norm_num)

/-- C4 counterexample: `_calculate_timeout` passes `size_gb * 180`
through Python's truncating `int()`, so for a file of `2^30 + 1` bytes
(one byte over 1 GB) the computed timeout is the integer 480, not the
claimed real value `min(3600, 300 + 180 * size_in_GB) = 480 + 180/2^30`. -/
theorem calculate_timeout_not_exact_formula :
    ((calculate_timeout (2 ^ 30 + 1) : ℚ))
      ≠ min 3600 (300 + 180 * file_size_gb (2 ^ 30 + 1)) := by
  have hgb : file_size_gb (2 ^ 30 + 1) = (2 ^ 30 + 1) / 2 ^ 30 := by
    norm_num [file_size_gb]
  have hfloor : (⌊file_size_gb (2 ^ 30 + 1) * TIMEOUT_PER_GB⌋ : ℤ) = 180 := by
    rw [hgb, Int.floor_eq_iff]
    norm_num [TIMEOUT_PER_GB]
  have hval : calculate_timeout (2 ^ 30 + 1) = 480 := by
    rw [calculate_timeout, hfloor]
    norm_num [BASE_TIMEOUT_SECONDS]
  rw [hval, hgb]
  norm_num

/-- C4 (amended): the computed timeout is
`min(3600, 300 + floor(180 * size_in_GB))` — the claimed formula with
the product truncated to a whole number of seconds; in particular a
2 GB input yields 660 s and a 20 GB input is capped at 3600 s. -/
theorem calculate_timeout_formula :
    (∀ sizeBytes : ℕ,
      calculate_timeout sizeBytes
        = min 3600 (300 + ⌊180 * file_size_gb sizeBytes⌋)) ∧
    calculate_timeout (2 * 2 ^ 30) = 660 ∧
    calculate_timeout (20 * 2 ^ 30) = 3600 := by
  refine ⟨?_, ?_, ?_⟩
  · intro sizeBytes
    rw [calculate_timeout, min_comm, mul_comm]
    rfl
  · have hgb : file_size_gb (2 * 2 ^ 30) = 2 := by
      norm_num [file_size_gb]
    rw [calculate_timeout, hgb]
    norm_num [BASE_TIMEOUT_SECONDS, TIMEOUT_PER_GB,
      show ((360 : ℤ) : ℚ) = 360 from rfl, Int.floor_intCast]
  · have hgb : file_size_gb (20 * 2 ^ 30) = 20 := by
      norm_num [file_size_gb]
    rw [calculate_timeout, hgb]
    norm_num [BASE_TIMEOUT_SECONDS, TIMEOUT_PER_GB,
      show ((3600 : ℤ) : ℚ) = 3600 from rfl, Int.floor_intCast]

/-- A Python slice `s[-n:]` keeps at most `n` characters. -/
lemma pyTakeRight_length_le (s : String) (n : ℕ) :
    (pyTakeRight s n).length ≤ n := by
  show (pyTakeRightL s.data n).length ≤ n
  rw [pyTakeRightL, List.length_drop]
  omega

/-- A Python slice `s[-n:]` is a suffix of `s`. -/
lemma pyTakeRight_suffix (s : String) (n : ℕ) :
    (pyTakeRight s n).data.IsSuffix s.data :=
  List.drop_suffix _ _

/-- C5 counterexample: when ffmpeg exits with code 0 and the output
file exists but is empty (0 bytes), `extract_audio` succeeds — it
checks only `output_path.exists()`, never the size — whereas the claim
requires the extraction-failure error in the absent-or-empty case. -/
theorem extract_audio_accepts_empty_output :
    extract_audio_result ⟨0, "", ""⟩ true 0 = Except.ok () ∧
    ¬ ∃ msg, extract_audio_result ⟨0, "", ""⟩ true 0 = Except.error msg := by
  constructor
  · rfl
  · rintro ⟨msg, hmsg⟩
    simp [extract_audio_result] at hmsg

/-- C5 (amended): `extract_audio` raises the extraction-failure error
exactly when ffmpeg exits non-zero or when it exits 0 but the output
file does not exist (an existing empty file is accepted); in the
non-zero-exit case the message carries at most the last 500 characters
of stderr (or a fixed fallback when stderr is empty). -/
theorem extract_audio_error_conditions (res : ProcResult)
    (outputExists : Bool) (outputSizeBytes : ℕ) :
    ((∃ msg, extract_audio_result res outputExists outputSizeBytes = Except.error msg)
      ↔ (res.returncode ≠ 0 ∨ outputExists = false)) ∧
    (res.returncode ≠ 0 →
      ∃ tail, extract_audio_result res outputExists outputSizeBytes
          = Except.error ("FFmpeg failed: " ++ tail) ∧
        tail.length ≤ 500 ∧
        (res.stderr ≠ "" → tail.data.IsSuffix res.stderr.data)) := by
  constructor
  · constructor
    · rintro ⟨msg, hmsg⟩
      by_contra hcon
      push_neg at hcon
      rw [extract_audio_result, if_neg (by simpa using hcon.1)] at hmsg
      rw [if_neg (by simp [hcon.2])] at hmsg
      exact Except.noConfusion hmsg
    · intro h
      rcases h with h | h
      · exact ⟨_, by rw [extract_audio_result, if_pos h]⟩
      · by_cases hrc : res.returncode ≠ 0
        · exact ⟨_, by rw [extract_audio_result, if_pos hrc]⟩
        · exact ⟨"Output audio file was not created",
            by rw [extract_audio_result, if_neg hrc, if_pos (by simp [h])]⟩
  · intro hrc
    by_cases hstderr : res.stderr ≠ ""
    · refine ⟨pyTakeRight res.stderr 500, ?_, pyTakeRight_length_le _ _, ?_⟩
      · rw [extract_audio_result, if_pos hrc, if_pos hstderr]
      · intro _
        exact pyTakeRight_suffix _ _
    · refine ⟨"Unknown error", ?_, by decide, ?_⟩
      · rw [extract_audio_result, if_pos hrc, if_neg hstderr]
      · intro h
        exact absurd h (by simpa using hstderr)

/-- C5 witness for the amended theorem: a run with exit code 1 and
stderr `"boom"` raises, and an exit-0 run with a missing output file
raises, per the equivalence. -/
theorem extract_audio_error_conditions_witness :
    (∃ msg, extract_audio_result ⟨1, "boom", ""⟩ true 0 = Except.error msg) ∧
    (∃ msg, extract_audio_result ⟨0, "", ""⟩ false 0 = Except.error msg) :=
  ⟨(extract_audio_error_conditions ⟨1, "boom", ""⟩ true 0).1.mpr (Or.inl (by norm_num)),
   (extract_audio_error_conditions ⟨0, "", ""⟩ false 0).1.mpr (Or.inr rfl)⟩

/-- C9: `get_video_duration` never lets an exception escape for any
probe outcome, and returns 0.0 in every degraded case: ffprobe
timeout, non-zero exit code, empty stdout, or stdout that `float()`
cannot parse. -/
theorem get_video_duration_degrades_to_zero
    (parseFloat : String → Option ℚ) :
    (∀ o, ∃ v, get_video_duration parseFloat o = Except.ok v) ∧
    get_video_duration parseFloat .timedOut = Except.ok 0 ∧
    (∀ res : ProcResult, res.returncode ≠ 0 →
      get_video_duration parseFloat (.completed res) = Except.ok 0) ∧
    (∀ res : ProcResult, pyStrip res.stdout = "" →
      get_video_duration parseFloat (.completed res) = Except.ok 0) ∧
    (∀ res : ProcResult, parseFloat (pyStrip res.stdout) = none →
      get_video_duration parseFloat (.completed res) = Except.ok 0) := by
  refine ⟨?_, rfl, ?_, ?_, ?_⟩
  · intro o
    cases o with
    | timedOut => exact ⟨0, rfl⟩
    | completed res =>
        rw [get_video_duration]
        split
        · split
          · exact ⟨_, rfl⟩
          · exact ⟨0, rfl⟩
        · exact ⟨0, rfl⟩
  · intro res hrc
    rw [get_video_duration, if_neg (by simp [hrc])]
  · intro res hout
    rw [get_video_duration, if_neg (by simp [hout])]
  · intro res hparse
    rw [get_video_duration]
    split
    · rw [hparse]
    · rfl

/-- C9 witness: with a parser that always fails, a completed ffprobe
run whose stdout is unparsable still returns 0.0, as do a timeout and
a non-zero exit. -/
theorem get_video_duration_degrades_to_zero_witness :
    get_video_duration (fun _ => none) .timedOut = Except.ok 0 ∧
    get_video_duration (fun _ => none) (.completed ⟨1, "", "12.5"⟩) = Except.ok 0 ∧
    get_video_duration (fun _ => none) (.completed ⟨0, "", "garbage"⟩) = Except.ok 0 :=
  ⟨(get_video_duration_degrades_to_zero (fun _ => none)).2.1,
   (get_video_duration_degrades_to_zero (fun _ => none)).2.2.1 ⟨1, "", "12.5"⟩ (by norm_num),
   (get_video_duration_degrades_to_zero (fun _ => none)).2.2.2.2 ⟨0, "", "garbage"⟩ rfl⟩

/-- C2 counterexample: merging the three example segments produces the
expected text, but its whitespace-token count — which is what the code
stores as `word_count` — is 9, not the claimed 10. -/
theorem merge_example_word_count_not_ten :
    ¬ (mergeTranscripts ["Hello world.", "This is chunk two.", "Final chunk text."]
        = "Hello world. This is chunk two. Final chunk text." ∧
       pyWordCount (mergeTranscripts
        ["Hello world.", "This is chunk two.", "Final chunk text."]) = 10) := by
  intro h
  have := h.2
  rw [show mergeTranscripts ["Hello world.", "This is chunk two.", "Final chunk text."]
      = "Hello world. This is chunk two. Final chunk text." from by decide] at this
  exact absurd this (by decide)

/-- C2 (amended): merging the ordered segment texts
`["Hello world.", "This is chunk two.", "Final chunk text."]` — join
with single spaces, collapse repeated spaces — yields
`"Hello world. This is chunk two. Final chunk text."` with a word
count of 9. -/
theorem merge_example_result :
    mergeTranscripts ["Hello world.", "This is chunk two.", "Final chunk text."]
      = "Hello world. This is chunk two. Final chunk text." ∧
    pyWordCount (mergeTranscripts
      ["Hello world.", "This is chunk two.", "Final chunk text."]) = 9 := by
  constructor
  · decide
  · decide

/-- Bounds of the configured backoff: every wait of
`wait_exponential(multiplier=1, min=2, max=10)` lies in `[2, 10]`. -/
lemma wait_exponential_bounds (k : ℕ) :
    2 ≤ wait_exponential 1 2 10 k ∧ wait_exponential 1 2 10 k ≤ 10 := by
  rw [wait_exponential]
  constructor
  · rw [show max (0 : ℚ) 2 = 2 by norm_num]
    exact le_max_left _ _
  · exact max_le (by norm_num) (min_le_right _ _)

/-- C7: the remote Whisper call is attempted at most 3 times
(`stop_after_attempt(3)`); the waits between attempts follow
`wait_exponential(multiplier=1, min=2, max=10)` — so each backoff is
at least the starting 2 s and capped at 10 s — and when all three
attempts fail the retry loop is exhausted and `transcribe` surfaces
the transcription-failed error. -/
theorem call_groq_whisper_retry_policy (f : ℕ → Option String) :
    (call_groq_whisper f).2.1 ≤ 3 ∧
    (∀ i (h : i < (call_groq_whisper f).1.length),
      (call_groq_whisper f).1.get ⟨i, h⟩ = wait_exponential 1 2 10 (i + 1) ∧
      2 ≤ (call_groq_whisper f).1.get ⟨i, h⟩ ∧
      (call_groq_whisper f).1.get ⟨i, h⟩ ≤ 10) ∧
    (f 1 = none → f 2 = none → f 3 = none →
      (call_groq_whisper f).2.2 = none ∧
      transcribe_wrap (call_groq_whisper f).2.2
        = Except.error "Transcription failed: RetryError") := by
  cases h1 : f 1 with
  | some a =>
      have hcall : call_groq_whisper f = ([], 1, some a) := by
        simp [call_groq_whisper, retryRun, h1]
      rw [hcall]
      refine ⟨by norm_num, ?_, ?_⟩
      · intro i h
        simp at h
      · intro hc1
        simp at hc1
  | none =>
      cases h2 : f 2 with
      | some a =>
          have hcall : call_groq_whisper f
              = ([wait_exponential 1 2 10 1], 2, some a) := by
            simp [call_groq_whisper, retryRun, h1, h2]
          rw [hcall]
          refine ⟨by norm_num, ?_, ?_⟩
          · intro i h
            simp only [List.length_cons, List.length_nil] at h
            have hi : i = 0 := by omega
            subst hi
            exact ⟨rfl, wait_exponential_bounds 1⟩
          · intro _ hc2
            simp at hc2
      | none =>
          cases h3 : f 3 with
          | some a =>
              have hcall : call_groq_whisper f
                  = ([wait_exponential 1 2 10 1, wait_exponential 1 2 10 2],
                      3, some a) := by
                simp [call_groq_whisper, retryRun, h1, h2, h3]
              rw [hcall]
              refine ⟨by norm_num, ?_, ?_⟩
              · intro i h
                simp only [List.length_cons, List.length_nil] at h
                match i, h with
                | 0, _ => exact ⟨rfl, wait_exponential_bounds 1⟩
                | 1, _ => exact ⟨rfl, wait_exponential_bounds 2⟩
              · intro _ _ hc3
                simp at hc3
          | none =>
              have hcall : call_groq_whisper f
                  = ([wait_exponential 1 2 10 1, wait_exponential 1 2 10 2],
                      3, none) := by
                simp [call_groq_whisper, retryRun, h1, h2, h3]
              rw [hcall]
              refine ⟨by norm_num, ?_, ?_⟩
              · intro i h
                simp only [List.length_cons, List.length_nil] at h
                match i, h with
                | 0, _ => exact ⟨rfl, wait_exponential_bounds 1⟩
                | 1, _ => exact ⟨rfl, wait_exponential_bounds 2⟩
              · intro _ _ _
                exact ⟨rfl, rfl⟩

/-- C7 witness: when every attempt raises, the loop makes its 3
attempts, waits 2 s twice (the clamped exponential schedule), and the
caller receives the transcription-failed error. -/
theorem call_groq_whisper_retry_policy_witness :
    (call_groq_whisper (fun _ => (none : Option String))).2.1 ≤ 3 ∧
    (call_groq_whisper (fun _ => (none : Option String))).2.2 = none ∧
    transcribe_wrap (call_groq_whisper (fun _ => (none : Option String))).2.2
      = Except.error "Transcription failed: RetryError" := by
  have h := call_groq_whisper_retry_policy (fun _ => none)
  exact ⟨h.1, (h.2.2 rfl rfl rfl).1, (h.2.2 rfl rfl rfl).2⟩

/-- C10: every successfully returned `TranscriptResult` — from the
single-file branch (compressed or not) and from the chunked branch
alike — has `word_count` equal to the whitespace-token count of its
own `text` field: the count is recomputed from the final text, never
carried over from per-segment metadata. -/
theorem word_count_recomputed_from_text (w : ChunkWorld)
    (direct compressed : SingleWorld) (size dur : ℚ) (r : TranscriptResult)
    (h : transcribe_with_chunking w direct compressed size dur = Except.ok r) :
    r.word_count = pyWordCount r.text := by
  rw [transcribe_with_chunking] at h
  by_cases hlen : (calculate_chunks size dur).length = 1
  · rw [if_pos hlen] at h
    by_cases hsz : MAX_FILE_SIZE_MB < size
    · rw [if_pos hsz] at h
      cases h
      rfl
    · rw [if_neg hsz] at h
      cases h
      rfl
  · rw [if_neg hlen] at h
    rw [transcribeChunked] at h
    rcases hrun : (processChunks w MAX_FILE_SIZE_MB
        (calculate_chunks size dur).length 0 [] none).2 with e | ⟨ts, dl⟩
    · rw [hrun] at h
      exact absurd h (by simp)
    · rw [hrun] at h
      simp only at h
      cases h
      rfl

/-- C10 witness: a 10 MB, 100 s input takes the uncompressed
single-file path; the result's word count is the token count of its
text. -/
theorem word_count_recomputed_from_text_witness :
    transcribe_with_chunking ⟨fun _ => 1, fun _ => "", fun _ => none, fun _ => 0⟩
        ⟨"hi there", some "en", 7⟩ ⟨"", none, 0⟩ 10 100
      = Except.ok ⟨"hi there", "en", 7, 2⟩ ∧
    (⟨"hi there", "en", 7, 2⟩ : TranscriptResult).word_count
      = pyWordCount (⟨"hi there", "en", 7, 2⟩ : TranscriptResult).text := by
  have hchunks : calculate_chunks 10 100 = [(0, 100)] := by
    simp only [calculate_chunks, calculate_chunks_g]
    rw [if_pos (by norm_num [TARGET_CHUNK_SIZE_MB])]
  have heq : transcribe_with_chunking ⟨fun _ => 1, fun _ => "", fun _ => none, fun _ => 0⟩
      ⟨"hi there", some "en", 7⟩ ⟨"", none, 0⟩ 10 100
      = Except.ok ⟨"hi there", "en", 7, 2⟩ := by
    rw [transcribe_with_chunking, hchunks]
    rw [if_pos (by simp), if_neg (by norm_num [MAX_FILE_SIZE_MB])]
    have hsf : singleFileResult ⟨"hi there", some "en", (7 : ℚ)⟩ 100
        = ⟨"hi there", "en", 7, 2⟩ := by decide
    rw [hsf]
  exact ⟨heq, word_count_recomputed_from_text _ _ _ _ _ _ heq⟩

/-- Oversized-chunk behaviour of the chunk loop: as soon as the first
oversized extracted chunk is reached, the loop raises and emits no
remote call for it (nor for anything after it). -/
lemma processChunks_oversized (w : ChunkWorld) (maxMB : ℚ) :
    ∀ (fuel start : ℕ) (ts : List String) (dl : Option String) (i : ℕ),
      start ≤ i → i < start + fuel →
      (∀ j, start ≤ j → j < i → ¬ maxMB < w.chunkSizeMB j) →
      maxMB < w.chunkSizeMB i →
      (processChunks w maxMB fuel start ts dl).2 = .error (.tooLarge i) ∧
      ∀ p, ChunkEvent.remoteCall i p ∉ (processChunks w maxMB fuel start ts dl).1 := by
  intro fuel
  induction fuel with
  | zero =>
      intro start ts dl i h1 h2 _ _
      omega
  | succ fuel ih =>
      intro start ts dl i h1 h2 hprev hbig
      by_cases hstart : start = i
      · subst hstart
        simp only [processChunks]
        rw [if_pos hbig]
        refine ⟨rfl, ?_⟩
        intro p
        simp
      · have hlt : start < i := lt_of_le_of_ne h1 hstart
        have hok : ¬ maxMB < w.chunkSizeMB start := hprev start le_rfl hlt
        simp only [processChunks]
        rw [if_neg hok]
        have hih := ih (start + 1)
          (if pyStrip (w.rawText start) ≠ ""
            then ts ++ [pyStrip (w.rawText start)] else ts)
          (match dl with
            | some l => some l
            | none => some (effectiveLang (w.rawLang start)))
          i hlt (by omega)
          (fun j hj1 hj2 => hprev j (by omega) hj2) hbig
        refine ⟨hih.1, ?_⟩
        intro p
        simp only [List.mem_cons, not_or]
        exact ⟨by simp, by simp [Ne.symm hstart], hih.2 p⟩

/-- C6: in the chunked pipeline, if the chunks before `i` are within
the 25 MB ceiling and extracted chunk `i` exceeds it, the
oversized-chunk error is raised and chunk `i` is never passed to the
remote transcription call. -/
theorem chunk_too_large_blocks_remote_call (w : ChunkWorld) (n : ℕ)
    (dur : ℚ) (i : ℕ) (hin : i < n)
    (hprev : ∀ j, j < i → w.chunkSizeMB j ≤ MAX_FILE_SIZE_MB)
    (hbig : MAX_FILE_SIZE_MB < w.chunkSizeMB i) :
    (transcribeChunked w n dur).2 = .error (.tooLarge i) ∧
    ∀ p, ChunkEvent.remoteCall i p ∉ (transcribeChunked w n dur).1 := by
  have haux := processChunks_oversized w MAX_FILE_SIZE_MB n 0 [] none i
    (Nat.zero_le i) (by omega)
    (fun j _ hj2 => not_lt.mpr (hprev j hj2)) hbig
  rw [transcribeChunked, haux.1]
  exact ⟨rfl, haux.2⟩

/-- C6 witness: two planned chunks whose extractions measure 1 MB and
30 MB; the loop aborts with the oversized error at index 1 and never
calls the API on that chunk. -/
theorem chunk_too_large_blocks_remote_call_witness :
    (transcribeChunked ⟨fun j => if j = 0 then 1 else 30, fun _ => "", fun _ => none,
        fun _ => 0⟩ 2 100).2 = .error (.tooLarge 1) ∧
    ChunkEvent.remoteCall 1 none ∉
      (transcribeChunked ⟨fun j => if j = 0 then 1 else 30, fun _ => "", fun _ => none,
        fun _ => 0⟩ 2 100).1 := by
  have h := chunk_too_large_blocks_remote_call
    ⟨fun j => if j = 0 then 1 else 30, fun _ => "", fun _ => none, fun _ => 0⟩
    2 100 1 (by norm_num)
    (by
      intro j hj
      have hj0 : j = 0 := by omega
      subst hj0
      norm_num [MAX_FILE_SIZE_MB])
    (by norm_num [MAX_FILE_SIZE_MB])
  exact ⟨h.1, h.2 none⟩

/-- The `transcripts` list after the chunk loop has processed `k`
chunks starting at index `start` from initial state `ts` (no chunk
having errored): each chunk appends its stripped text when non-empty. -/
def tsAfter (w : ChunkWorld) : ℕ → ℕ → List String → List String
  | 0, _, ts => ts
  | k + 1, start, ts =>
      tsAfter w k (start + 1)
        (if pyStrip (w.rawText start) ≠ "" then ts ++ [pyStrip (w.rawText start)] else ts)

/-- Remote-call events of the chunk loop only mention indices at or
after the loop's starting index. -/
lemma processChunks_remoteCall_ge (w : ChunkWorld) (maxMB : ℚ) :
    ∀ (fuel start : ℕ) (ts : List String) (dl : Option String) (i : ℕ)
      (p : Option String),
      ChunkEvent.remoteCall i p ∈ (processChunks w maxMB fuel start ts dl).1 →
      start ≤ i := by
  intro fuel
  induction fuel with
  | zero =>
      intro start ts dl i p h
      simp [processChunks] at h
  | succ fuel ih =>
      intro start ts dl i p h
      simp only [processChunks] at h
      by_cases hbig : maxMB < w.chunkSizeMB start
      · rw [if_pos hbig] at h
        simp at h
      · rw [if_neg hbig] at h
        simp only [List.mem_cons] at h
        rcases h with h | h | h
        · exact absurd h (by simp)
        · have : i = start := by
            have := ChunkEvent.remoteCall.injEq i p start _ ▸ h
            simp [ChunkEvent.remoteCall.injEq] at h
            exact h.1
          omega
        · have := ih (start + 1) _ _ i p h
          omega

/-- The prompt sent for chunk `i`: as long as every chunk up to `i`
is within the size ceiling, the loop's trace contains a remote call
for `i` exactly with the continuity prompt computed from the
accumulated transcripts state. -/
lemma processChunks_prompt_eq (w : ChunkWorld) (maxMB : ℚ) :
    ∀ (fuel start : ℕ) (ts : List String) (dl : Option String) (i : ℕ),
      start ≤ i → i < start + fuel →
      (∀ j, start ≤ j → j ≤ i → ¬ maxMB < w.chunkSizeMB j) →
      ∀ p, (ChunkEvent.remoteCall i p ∈ (processChunks w maxMB fuel start ts dl).1
        ↔ p = continuityPrompt (tsAfter w (i - start) start ts)) := by
  intro fuel
  induction fuel with
  | zero =>
      intro start ts dl i h1 h2
      omega
  | succ fuel ih =>
      intro start ts dl i h1 h2 hsz p
      have hok : ¬ maxMB < w.chunkSizeMB start := hsz start le_rfl h1
      simp only [processChunks]
      rw [if_neg hok]
      by_cases hstart : start = i
      · subst hstart
        rw [Nat.sub_self]
        constructor
        · intro h
          simp only [List.mem_cons] at h
          rcases h with h | h | h
          · exact absurd h (by simp)
          · simp [ChunkEvent.remoteCall.injEq] at h
            exact h
          · have := processChunks_remoteCall_ge w maxMB fuel (start + 1) _ _ start p h
            omega
        · intro h
          subst h
          simp only [List.mem_cons]
          right
          left
          rfl
      · have hlt : start < i := lt_of_le_of_ne h1 hstart
        have hih := ih (start + 1)
          (if pyStrip (w.rawText start) ≠ ""
            then ts ++ [pyStrip (w.rawText start)] else ts)
          (match dl with
            | some l => some l
            | none => some (effectiveLang (w.rawLang start)))
          i hlt (by omega)
          (fun j hj1 hj2 => hsz j (by omega) hj2) p
        have hts : tsAfter w (i - start) start ts
            = tsAfter w (i - (start + 1)) (start + 1)
                (if pyStrip (w.rawText start) ≠ ""
                  then ts ++ [pyStrip (w.rawText start)] else ts) := by
          have hk : i - start = (i - (start + 1)) + 1 := by omega
          rw [hk, tsAfter]
        rw [hts]
        rw [← hih]
        simp only [List.mem_cons]
        constructor
        · intro h
          rcases h with h | h | h
          · exact absurd h (by simp)
          · simp [ChunkEvent.remoteCall.injEq] at h
            omega
          · exact h
        · intro h
          right
          right
          exact h

/-- After processing chunks `start..start+k` the last accumulated
transcript is the text of chunk `start+k`, provided that text is
non-empty. -/
lemma tsAfter_getLast (w : ChunkWorld) :
    ∀ (k start : ℕ) (ts : List String),
      pyStrip (w.rawText (start + k)) ≠ "" →
      (tsAfter w (k + 1) start ts).getLast?
        = some (pyStrip (w.rawText (start + k))) := by
  intro k
  induction k with
  | zero =>
      intro start ts h
      rw [tsAfter, tsAfter]
      rw [if_pos (by simpa using h)]
      simpa using List.getLast?_concat ts
  | succ k ih =>
      intro start ts h
      rw [show k + 1 + 1 = (k + 1) + 1 from rfl, tsAfter]
      have harg : start + (k + 1) = (start + 1) + k := by omega
      rw [harg] at h ⊢
      exact ih (start + 1) _ h

/-- C8 (amended): in the chunked pipeline, given that all chunks up to
`i + 1` fit the ceiling, if the segment of chunk `i` produced text of
more than 50 characters, then chunk `i + 1` is remote-called exactly
with the trailing 200 characters of that text as its continuity
prompt; and the first chunk is remote-called exactly with no prompt. -/
theorem continuity_prompt_trailing (w : ChunkWorld) (n : ℕ) (dur : ℚ)
    (i : ℕ) (hin : i + 1 < n)
    (hsz : ∀ j, j ≤ i + 1 → w.chunkSizeMB j ≤ MAX_FILE_SIZE_MB)
    (hlong : 50 < (pyStrip (w.rawText i)).length) :
    (∀ p, ChunkEvent.remoteCall (i + 1) p ∈ (transcribeChunked w n dur).1
      ↔ p = some (pyTakeRight (pyStrip (w.rawText i)) 200)) ∧
    (∀ p, ChunkEvent.remoteCall 0 p ∈ (transcribeChunked w n dur).1
      ↔ p = none) := by
  have hev : (transcribeChunked w n dur).1
      = (processChunks w MAX_FILE_SIZE_MB n 0 [] none).1 := by
    rw [transcribeChunked]
    rcases h : (processChunks w MAX_FILE_SIZE_MB n 0 [] none).2 with e | ⟨ts, dl⟩
    · simp [h]
    · simp [h]
  have hne : pyStrip (w.rawText i) ≠ "" := by
    intro hcon
    rw [hcon] at hlong
    simp [String.length] at hlong
  constructor
  · intro p
    rw [hev]
    have h := processChunks_prompt_eq w MAX_FILE_SIZE_MB n 0 [] none (i + 1)
      (Nat.zero_le _) (by omega)
      (fun j _ hj2 => not_lt.mpr (hsz j hj2)) p
    rw [h, Nat.sub_zero]
    have hlast := tsAfter_getLast w i 0 [] (by simpa using hne)
    rw [show (0 : ℕ) + i = i from by omega] at hlast
    have hcp : continuityPrompt (tsAfter w (i + 1) 0 [])
        = some (pyTakeRight (pyStrip (w.rawText i)) 200) := by
      unfold continuityPrompt
      rw [hlast]
      simp [hlong]
    rw [hcp]
  · intro p
    rw [hev]
    have h := processChunks_prompt_eq w MAX_FILE_SIZE_MB n 0 [] none 0
      le_rfl (by omega)
      (fun j _ hj2 => not_lt.mpr (hsz j (by omega))) p
    rw [h, Nat.sub_zero]
    rfl

/-- C8 counterexample: with two chunks whose first segment produces
the non-empty 11-character text "Short text.", the code passes *no*
continuity prompt to the second remote call (its threshold is
`len > 50`, not non-emptiness), contradicting the claim that the
prompt equals the trailing 200 characters of the preceding text. -/
theorem continuity_prompt_counterexample :
    pyStrip "Short text." ≠ "" ∧
    ChunkEvent.remoteCall 1 none ∈
      (transcribeChunked ⟨fun _ => 1, fun i => if i = 0 then "Short text." else "More words here.",
        fun _ => some "en", fun _ => 0⟩ 2 100).1 ∧
    ChunkEvent.remoteCall 1 (some (pyTakeRight (pyStrip "Short text.") 200)) ∉
      (transcribeChunked ⟨fun _ => 1, fun i => if i = 0 then "Short text." else "More words here.",
        fun _ => some "en", fun _ => 0⟩ 2 100).1 := by
  refine ⟨by decide, by decide, by decide⟩

/-- C8 witness: with a 60-character first segment, the second chunk's
remote call carries exactly the trailing slice of that text. -/
theorem continuity_prompt_trailing_witness :
    ChunkEvent.remoteCall 1
        (some (pyTakeRight (pyStrip "aaaaaaaaaaaaaaaaaaaaaaaaaaaaaaaaaaaaaaaaaaaaaaaaaaaaaaaaaaaa") 200)) ∈
      (transcribeChunked ⟨fun _ => 1, fun i => if i = 0 then "aaaaaaaaaaaaaaaaaaaaaaaaaaaaaaaaaaaaaaaaaaaaaaaaaaaaaaaaaaaa" else "ok",
        fun _ => some "en", fun _ => 0⟩ 2 100).1 := by
  exact ((continuity_prompt_trailing
    ⟨fun _ => 1, fun i => if i = 0 then "aaaaaaaaaaaaaaaaaaaaaaaaaaaaaaaaaaaaaaaaaaaaaaaaaaaaaaaaaaaa" else "ok",
      fun _ => some "en", fun _ => 0⟩ 2 100 0
    (by norm_num)
    (by
      intro j hj
      show (1 : ℚ) ≤ MAX_FILE_SIZE_MB
      norm_num [MAX_FILE_SIZE_MB])
    (by decide)).1 _).mpr rfl

end VideoTitleGen
